import Mathlib

/-!
Verification of the hatch-sync incremental synchronization engine
(`app/sync.py`, `app/hatch_grow_service.py`, `app/gcal_service.py`).

The Python code is shallowly embedded: dict-shaped records become
structures whose fields are the keys the code actually reads (absent keys
are `none`), Python truthiness of strings/options is made explicit,
naive-UTC datetimes are seconds since the Unix epoch (`Int`), and every
external effect (HTTP fetch, calendar insert, state save, wall clock) is an
explicit parameter of the engine.
-/

namespace HatchSync

/-- Record identifiers: Hatch record ids are JSON ints or strings
(`set[int | str]` in `app/sync.py`). -/
inductive Rid where
  | int (n : Int)
  | str (s : String)
deriving DecidableEq, Repr

/-- How a record id renders inside an f-string such as
`f"Diaper event {rid}: {e}"`. -/
def ridStr : Rid → String
  | .int n => toString n
  | .str s => s

/-- Python truthiness of an optional string: `None` and `""` are falsy. -/
def truthy : Option String → Option String
  | none => none
  | some s => if s = "" then none else some s

/-- Embedding of Python `a or b` where `a` is an optional string and `b` a
string: the value of `a` when truthy, otherwise `b`. -/
def orStr (a : Option String) (b : String) : String :=
  match truthy a with
  | some s => s
  | none => b

/-- Python `str.strip()`: drop whitespace from both ends. (Structural
implementation over the character list so that proofs can evaluate it.) -/
def stripStr (s : String) : String :=
  ⟨((s.data.dropWhile Char.isWhitespace).reverse.dropWhile Char.isWhitespace).reverse⟩

/-- Python `str.replace(c, "")` for a one-character pattern: remove every
occurrence of the character. -/
def removeChar (c : Char) (s : String) : String :=
  ⟨s.data.filter (fun a => a ≠ c)⟩

/-- Python `str.replace(c, r)` for one-character pattern and replacement:
map every occurrence. -/
def mapChar (c r : Char) (s : String) : String :=
  ⟨s.data.map (fun a => if a = c then r else a)⟩

/-- Python `s[:n]` (slicing counts code points, like `List.take` on the
character list). -/
def takeStr (n : Nat) (s : String) : String :=
  ⟨s.data.take n⟩

/-- Helper for `splitChar`. -/
def splitCharAux (sep : Char) : List Char → List Char → List (List Char)
  | [], acc => [acc.reverse]
  | c :: cs, acc =>
    if c = sep then acc.reverse :: splitCharAux sep cs []
    else splitCharAux sep cs (c :: acc)

/-- Python `str.split(sep)` for a one-character separator (also the
behavior of splitting on the literal separators of a `strptime` format). -/
def splitChar (sep : Char) (s : String) : List String :=
  (splitCharAux sep s.data []).map (fun l => ⟨l⟩)

/-- Value of an all-digits string. -/
def digitsToNat (l : List Char) : Nat :=
  l.foldl (fun acc c => acc * 10 + (c.toNat - 48)) 0

/-- Naive-UTC datetimes at second resolution, as seconds since the Unix
epoch. `datetime` equality and `timedelta` arithmetic coincide with `Int`
equality and addition under this view. -/
abbrev DT := Int

/-- Embedding of `_add_minutes` in `app/gcal_service.py`:
`dt + timedelta(minutes=minutes)`. -/
def addMinutes (dt : DT) (minutes : Int) : DT := dt + 60 * minutes

/-- Days from civil date to 1970-01-01 (proleptic Gregorian), the standard
days-from-civil computation used to embed `datetime` values as epoch
seconds. -/
def daysFromCivil (y m d : Int) : Int :=
  let y2 := y - (if m ≤ 2 then 1 else 0)
  let era := Int.fdiv y2 400
  let yoe := y2 - era * 400
  let doy := Int.fdiv (153 * (m + (if m > 2 then -3 else 9)) + 2) 5 + d - 1
  let doe := yoe * 365 + Int.fdiv yoe 4 - Int.fdiv yoe 100 + doy
  era * 146097 + doe - 719468

/-- Epoch seconds of a civil datetime. -/
def toEpoch (y m d h mi s : Nat) : DT :=
  86400 * daysFromCivil (y : Int) (m : Int) (d : Int)
    + 3600 * (h : Int) + 60 * (mi : Int) + (s : Int)

/-- A numeric field of a `strptime` pattern: between 1 and `maxLen` digits. -/
def numField (maxLen : Nat) (s : String) : Option Nat :=
  if 0 < s.data.length ∧ s.data.length ≤ maxLen ∧ s.data.all Char.isDigit then
    some (digitsToNat s.data)
  else none

/-- Gregorian leap year. -/
def isLeap (y : Nat) : Bool :=
  (y % 4 == 0 && y % 100 != 0) || y % 400 == 0

/-- Number of days in a month, as `datetime` validates it. -/
def daysInMonth (y m : Nat) : Nat :=
  if m = 2 then (if isLeap y then 29 else 28)
  else if m = 4 ∨ m = 6 ∨ m = 9 ∨ m = 11 then 30
  else 31

/-- Field ranges accepted by `datetime.strptime` (the `datetime`
constructor rejects out-of-range components, making the format attempt
fail). -/
def validDate (y m d : Nat) : Bool :=
  decide (1 ≤ y ∧ y ≤ 9999 ∧ 1 ≤ m ∧ m ≤ 12 ∧ 1 ≤ d ∧ d ≤ daysInMonth y m)

/-- The `%Y-%m-%d` part of the Hatch datetime formats. -/
def parseDatePart (s : String) : Option (Nat × Nat × Nat) :=
  match splitChar '-' s with
  | [ys, ms, ds] =>
    match numField 4 ys, numField 2 ms, numField 2 ds with
    | some y, some m, some d => if validDate y m d then some (y, m, d) else none
    | _, _, _ => none
  | _ => none

/-- The `%H:%M:%S` time part. -/
def parseTimeHMS (s : String) : Option (Nat × Nat × Nat) :=
  match splitChar ':' s with
  | [hs, ms, ss] =>
    match numField 2 hs, numField 2 ms, numField 2 ss with
    | some h, some mi, some sec =>
      if h ≤ 23 ∧ mi ≤ 59 ∧ sec ≤ 59 then some (h, mi, sec) else none
    | _, _, _ => none
  | _ => none

/-- The `%H:%M` time part. -/
def parseTimeHM (s : String) : Option (Nat × Nat) :=
  match splitChar ':' s with
  | [hs, ms] =>
    match numField 2 hs, numField 2 ms with
    | some h, some mi => if h ≤ 23 ∧ mi ≤ 59 then some (h, mi) else none
    | _, _ => none
  | _ => none

/-- Attempt `strptime(s[:19], "%Y-%m-%d %H:%M:%S")`. -/
def tryFormat19 (s : String) : Option DT :=
  match splitChar ' ' s with
  | [ds, ts] =>
    match parseDatePart ds, parseTimeHMS ts with
    | some (y, m, d), some (h, mi, sec) => some (toEpoch y m d h mi sec)
    | _, _ => none
  | _ => none

/-- Attempt `strptime(s[:16], "%Y-%m-%d %H:%M")`. -/
def tryFormat16 (s : String) : Option DT :=
  match splitChar ' ' s with
  | [ds, ts] =>
    match parseDatePart ds, parseTimeHM ts with
    | some (y, m, d), some (h, mi) => some (toEpoch y m d h mi 0)
    | _, _ => none
  | _ => none

/-- Attempt `strptime(s[:10], "%Y-%m-%d")`. -/
def tryFormat10 (s : String) : Option DT :=
  match parseDatePart s with
  | some (y, m, d) => some (toEpoch y m d 0 0 0)
  | none => none

/-- Normalization performed by `_parse_hatch_dt`:
`s.strip().replace("Z", "").replace("T", " ")`. -/
def normalizeDtStr (s : String) : String :=
  mapChar 'T' ' ' (removeChar 'Z' (stripStr s))

/-- The deterministic core of `_parse_hatch_dt`: the three format attempts
on the truncated prefixes, `none` when the input is falsy or no format
matches (where the source falls back to `datetime.utcnow()`). -/
def parseDT? (s : String) : Option DT :=
  if s = "" then none
  else
    let n := normalizeDtStr s
    match tryFormat19 (takeStr 19 n) with
    | some dt => some dt
    | none =>
      match tryFormat16 (takeStr 16 n) with
      | some dt => some dt
      | none => tryFormat10 (takeStr 10 n)

/-- Embedding of `_parse_hatch_dt` in `app/gcal_service.py`. `now` stands
for the value `datetime.utcnow()` would return at the call. -/
def parseHatchDT (now : DT) (s : String) : DT :=
  (parseDT? s).getD now

/-- The `(summary, description, start, end)` tuple the adapters return. -/
structure CalendarEvent where
  summy : String
  desc : String
  start : DT
  endDt : DT
deriving DecidableEq, Repr

/-- A diaper record: the keys `diaper_to_event` and the fetch filter read.
Absent keys are `none`; `deleted` is the truthiness of the `deleted` key. -/
structure DiaperEntry where
  id : Option Rid := none
  diaperDate : Option String := none
  createDate : Option String := none
  diaperType : Option String := none
  details : Option String := none
  deleted : Bool := false
deriving DecidableEq, Repr

/-- A feeding record: the keys `feeding_to_event` and the fetch filter
read. -/
structure FeedingEntry where
  id : Option Rid := none
  startTime : Option String := none
  createDate : Option String := none
  endTime : Option String := none
  method : Option String := none
  source : Option String := none
  amount : Option Int := none
  durationInSeconds : Option Int := none
  deleted : Bool := false
deriving DecidableEq, Repr

/-- A sleep record: the keys `sleep_to_event` reads (`endF` stands for the
`"end"` key). -/
structure SleepEntry where
  id : Option Rid := none
  startTime : Option String := none
  start : Option String := none
  createDate : Option String := none
  endTime : Option String := none
  endF : Option String := none
  updateDate : Option String := none
deriving DecidableEq, Repr

/-- A weight record: the keys `weight_to_event` reads. -/
structure WeightEntry where
  id : Option Rid := none
  createDate : Option String := none
  weightDate : Option String := none
  weight : Option Int := none
  weightInGrams : Option Int := none
deriving DecidableEq, Repr

/-- Embedding of `diaper_to_event` in `app/gcal_service.py`. -/
def diaper_to_event (now : DT) (entry : DiaperEntry) : CalendarEvent :=
  let raw := orStr entry.diaperDate (orStr entry.createDate "")
  let dt := parseHatchDT now raw
  let dtype := orStr entry.diaperType "Diaper"
  let details := stripStr (orStr entry.details "")
  { summy := "Diaper - " ++ dtype
    desc := details
    start := dt
    endDt := addMinutes dt 5 }

/-- Embedding of `feeding_to_event` in `app/gcal_service.py`. -/
def feeding_to_event (now : DT) (entry : FeedingEntry) : CalendarEvent :=
  let raw := orStr entry.startTime (orStr entry.createDate "")
  let dt := parseHatchDT now raw
  let method := orStr entry.method "Feeding"
  let source := orStr entry.source ""
  let parts := [method]
    ++ (if source = "" then [] else [source])
    ++ (match entry.amount with
        | some a => [toString a ++ "g"]
        | none => [])
  let description := match entry.durationInSeconds with
    | some dsec =>
      "Duration: " ++ toString (Int.fdiv dsec 60) ++ "m "
        ++ toString (Int.emod dsec 60) ++ "s"
    | none => ""
  let endDt := match truthy entry.endTime with
    | some er => parseHatchDT now er
    | none => addMinutes dt 30
  { summy := "Feeding - " ++ String.intercalate " " parts
    desc := description
    start := dt
    endDt := endDt }

/-- Embedding of `sleep_to_event` in `app/gcal_service.py`. -/
def sleep_to_event (now : DT) (entry : SleepEntry) : CalendarEvent :=
  let rawStart := orStr entry.startTime (orStr entry.start (orStr entry.createDate ""))
  let rawEnd := orStr entry.endTime (orStr entry.endF (orStr entry.updateDate ""))
  let startDt := parseHatchDT now rawStart
  let endDt := if rawEnd = "" then addMinutes startDt 60 else parseHatchDT now rawEnd
  let durationMin := Int.tdiv (endDt - startDt) 60
  { summy := "Sleep - " ++ toString durationMin ++ "m"
    desc := ""
    start := startDt
    endDt := endDt }

/-- Embedding of `weight_to_event` in `app/gcal_service.py`. Note Python
`entry.get("weight") or entry.get("weightInGrams")`: a `0` weight is falsy
and falls through to the second key. -/
def weight_to_event (now : DT) (entry : WeightEntry) : CalendarEvent :=
  let raw := orStr entry.createDate (orStr entry.weightDate "")
  let dt := parseHatchDT now raw
  let weightG : Option Int := match entry.weight with
    | some w => if w = 0 then entry.weightInGrams else some w
    | none => entry.weightInGrams
  let summy := match weightG with
    | some w => "Weight - " ++ toString w ++ "g"
    | none => "Weight"
  { summy := summy
    desc := ""
    start := dt
    endDt := addMinutes dt 5 }

/-- Outcome of one HTTP GET inside `_fetch` in `app/hatch_grow_service.py`:
either the request raised (transport/timeout failure) or a JSON body with a
`status` and a `payload` came back. -/
inductive HttpResult (π : Type) where
  | exn (msg : String)
  | ok (status : Option String) (payload : Option π)
deriving DecidableEq, Repr

/-- Embedding of `_fetch`: any exception is swallowed and `None` returned;
on a non-`"success"` status `None` is returned; otherwise the payload. -/
def hatchFetch {π : Type} : HttpResult π → Option π
  | .exn _ => none
  | .ok status payload => if status = some "success" then payload else none

/-- Payload of the feedings endpoint (`none` models both a falsy payload
and a payload without the `feedings` key). -/
structure FeedingPayload where
  feedings : Option (List FeedingEntry) := none
deriving DecidableEq, Repr

/-- Payload of the diapers endpoint. -/
structure DiaperPayload where
  diapers : Option (List DiaperEntry) := none
deriving DecidableEq, Repr

/-- Payload of the sleep endpoint. -/
structure SleepPayload where
  sleeps : Option (List SleepEntry) := none
deriving DecidableEq, Repr

/-- Payload of the weight endpoint. -/
structure WeightPayload where
  weights : Option (List WeightEntry) := none
deriving DecidableEq, Repr

/-- Embedding of `fetch_feedings`: empty on missing payload or key, and
the soft-deleted records are filtered out. -/
def fetch_feedings (r : HttpResult FeedingPayload) : List FeedingEntry :=
  match hatchFetch r with
  | none => []
  | some p =>
    match p.feedings with
    | none => []
    | some fs => fs.filter (fun f => !f.deleted)

/-- Embedding of `fetch_diapers`: empty on missing payload or key, and the
soft-deleted records are filtered out. -/
def fetch_diapers (r : HttpResult DiaperPayload) : List DiaperEntry :=
  match hatchFetch r with
  | none => []
  | some p =>
    match p.diapers with
    | none => []
    | some ds => ds.filter (fun d => !d.deleted)

/-- Embedding of `fetch_sleep` (no soft-delete filter for this kind). -/
def fetch_sleep (r : HttpResult SleepPayload) : List SleepEntry :=
  match hatchFetch r with
  | none => []
  | some p =>
    match p.sleeps with
    | none => []
    | some ss => ss

/-- Embedding of `fetch_weight` (no soft-delete filter for this kind). -/
def fetch_weight (r : HttpResult WeightPayload) : List WeightEntry :=
  match hatchFetch r with
  | none => []
  | some p =>
    match p.weights with
    | none => []
    | some ws => ws

/-- The sync state (`sync_state.json`): a JSON object mapping string keys
to lists of record ids, viewed as a total map with `[]` for absent keys
(exactly the read behavior of `state.get(key, [])`). -/
abbrev SyncState := String → List Rid

/-- The everywhere-empty state (`{}`). -/
def emptyState : SyncState := fun _ => []

/-- Write of `state[key] = value`. -/
def stateSet (st : SyncState) (k : String) (v : List Rid) : SyncState :=
  fun k2 => if k2 = k then v else st k2

/-- Embedding of `_state_key` in `app/sync.py`. -/
def stateKey (babyId : Int) (dataType : String) : String :=
  "baby_" ++ toString babyId ++ "_" ++ dataType

/-- Embedding of `_get_seen_ids`: `set(state.get(key, []))`. The Python
`set` is modelled as a duplicate-free list; only membership is ever used. -/
def getSeenIds (st : SyncState) (babyId : Int) (dataType : String) : List Rid :=
  (st (stateKey babyId dataType)).dedup

/-- Embedding of `_set_seen_ids`: `state[key] = list(ids)`. -/
def setSeenIds (st : SyncState) (babyId : Int) (dataType : String) (ids : List Rid) : SyncState :=
  stateSet st (stateKey babyId dataType) ids

/-- Python `set.add`: membership-preserving insertion. -/
def setAdd (l : List Rid) (x : Rid) : List Rid :=
  if x ∈ l then l else l ++ [x]

/-- Result of one per-kind record loop of `run_sync`: how many events it
created, the error strings it appended, and the final seen set. -/
structure KindResult where
  created : Nat
  errors : List String
  seen : List Rid
deriving Repr

/-- Embedding of one per-kind loop of `run_sync` (`for d in diapers: ...`):
records whose `id` is absent or already seen are skipped; otherwise the
record is adapted and inserted, a success increments the count and marks
the id seen, a failure appends `f"{label} event {rid}: {e}"` and leaves
the id unseen. `ins` is the outcome of `create_event` for a given event. -/
def recordLoop {α : Type} (ins : CalendarEvent → Except String Unit)
    (toEvent : α → CalendarEvent) (getId : α → Option Rid) (label : String) :
    List α → List Rid → KindResult
  | [], seen => ⟨0, [], seen⟩
  | r :: rest, seen =>
    match getId r with
    | none => recordLoop ins toEvent getId label rest seen
    | some rid =>
      if rid ∈ seen then recordLoop ins toEvent getId label rest seen
      else
        match ins (toEvent r) with
        | .ok _ =>
          let k := recordLoop ins toEvent getId label rest (setAdd seen rid)
          ⟨k.created + 1, k.errors, k.seen⟩
        | .error e =>
          let k := recordLoop ins toEvent getId label rest seen
          ⟨k.created, (label ++ " event " ++ ridStr rid ++ ": " ++ e) :: k.errors, k.seen⟩

/-- One baby from the login payload (`baby["id"]`,
`baby.get("name", "Baby")`). -/
structure Baby where
  id : Int
  name : Option String := none
deriving DecidableEq, Repr

/-- The login payload parts `run_sync` reads: `login_data["token"]` and
`login_data.get("payload", {}).get("babies", [])`. -/
structure LoginData where
  token : String := ""
  babies : List Baby := []

/-- A cached Grow-data bundle as stored by `set_cached_grow_data`: the four
keys, each possibly absent or null (`cached.get("diapers") or []`). -/
structure GrowBundleOpt where
  diapers : Option (List DiaperEntry) := none
  feedings : Option (List FeedingEntry) := none
  sleeps : Option (List SleepEntry) := none
  weights : Option (List WeightEntry) := none
deriving Repr

/-- The four record collections of one baby after the cached/live branch. -/
structure GrowBundle where
  diapers : List DiaperEntry
  feedings : List FeedingEntry
  sleeps : List SleepEntry
  weights : List WeightEntry
deriving Repr

/-- The run summary dict `{"events_created": 0, "errors": []}`. -/
structure RunSummary where
  events_created : Nat := 0
  errors : List String := []
deriving DecidableEq, Repr

/-- Ambient environment of one `run_sync` cycle: configuration, every
external collaborator's responses, and the wall clock. Functions of the
baby id model per-baby responses. -/
structure SyncEnv where
  hatchEmail : Option String := none
  hatchPassword : Option String := none
  serviceAccountOk : Bool := true
  calendarAuth : Except String Unit := .ok ()
  cachedLogin : Option LoginData := none
  liveLogin : Except String LoginData := .error ""
  calendarFor : Baby → Except String String := fun _ => .ok ""
  cachedGrow : Int → Option GrowBundleOpt := fun _ => none
  httpDiapers : Int → HttpResult DiaperPayload := fun _ => .exn ""
  httpFeedings : Int → HttpResult FeedingPayload := fun _ => .exn ""
  httpSleeps : Int → HttpResult SleepPayload := fun _ => .exn ""
  httpWeights : Int → HttpResult WeightPayload := fun _ => .exn ""
  insertEvent : String → CalendarEvent → Except String Unit := fun _ _ => .ok ()
  saveResult : Except String Unit := .ok ()
  now : DT := 0

/-- The login step of `run_sync`: the cached login when present, else the
live login. -/
def loginResult (env : SyncEnv) : Except String LoginData :=
  match env.cachedLogin with
  | some ld => .ok ld
  | none => env.liveLogin

/-- The babies the cycle iterates over ([] when login fails). -/
def loginBabies (env : SyncEnv) : List Baby :=
  match loginResult env with
  | .ok ld => ld.babies
  | .error _ => []

/-- The cached-or-fetched record bundle for one baby (`run_sync` lines
129-174): a truthy cached dict wins, otherwise the four kinds are fetched
independently. -/
def babyBundle (env : SyncEnv) (b : Baby) : GrowBundle :=
  match env.cachedGrow b.id with
  | some c =>
    { diapers := c.diapers.getD []
      feedings := c.feedings.getD []
      sleeps := c.sleeps.getD []
      weights := c.weights.getD [] }
  | none =>
    { diapers := fetch_diapers (env.httpDiapers b.id)
      feedings := fetch_feedings (env.httpFeedings b.id)
      sleeps := fetch_sleep (env.httpSleeps b.id)
      weights := fetch_weight (env.httpWeights b.id) }

/-- One per-kind block of `run_sync` (loop plus the `_set_seen_ids` write):
the loop's created count and error strings are folded into the running
summary exactly as the Python loop mutates `summary`, and the final seen
set is written back to the state under `_state_key(baby_id, data_type)`. -/
def kindStep {α : Type} (ins : CalendarEvent → Except String Unit)
    (toEvent : α → CalendarEvent) (getId : α → Option Rid) (label dataType : String)
    (records : List α) (babyId : Int) (sm : RunSummary × SyncState) :
    RunSummary × SyncState :=
  let r := recordLoop ins toEvent getId label records (getSeenIds sm.2 babyId dataType)
  ({ events_created := sm.1.events_created + r.created
     errors := sm.1.errors ++ r.errors },
   setSeenIds sm.2 babyId dataType r.seen)

/-- Embedding of one iteration of the per-baby loop of `run_sync`: get or
create the calendar (a failure records an error and skips the baby), then
the four per-kind blocks in source order: diapers, feedings, sleep,
weight. -/
def processBaby (env : SyncEnv) (acc : RunSummary × SyncState) (b : Baby) :
    RunSummary × SyncState :=
  let summary := acc.1
  let babyName := b.name.getD "Baby"
  match env.calendarFor b with
  | .error e =>
    ({ summary with errors := summary.errors ++ ["Calendar for " ++ babyName ++ ": " ++ e] },
     acc.2)
  | .ok calId =>
    let bundle := babyBundle env b
    kindStep (env.insertEvent calId) (weight_to_event env.now) WeightEntry.id
      "Weight" "weight" bundle.weights b.id
      (kindStep (env.insertEvent calId) (sleep_to_event env.now) SleepEntry.id
        "Sleep" "sleep" bundle.sleeps b.id
        (kindStep (env.insertEvent calId) (feeding_to_event env.now) FeedingEntry.id
          "Feeding" "feeding" bundle.feedings b.id
          (kindStep (env.insertEvent calId) (diaper_to_event env.now) DiaperEntry.id
            "Diaper" "diaper" bundle.diapers b.id acc)))

/-- The whole per-baby loop. -/
def processBabies (env : SyncEnv) (babies : List Baby) (state : SyncState) :
    RunSummary × SyncState :=
  babies.foldl (processBaby env) (⟨0, []⟩, state)

/-- The cycle up to (but not including) `_save_state`: the summary, the
in-memory state at the end, and whether the end of the cycle (the
`_save_state` call site) was reached or an early `return summary` fired. -/
def runSyncAux (env : SyncEnv) (state0 : SyncState) : RunSummary × SyncState × Bool :=
  if (truthy env.hatchEmail).isNone ∨ (truthy env.hatchPassword).isNone then
    (⟨0, ["HATCH_EMAIL and HATCH_PASSWORD required"]⟩, state0, false)
  else if !env.serviceAccountOk then
    (⟨0, ["GOOGLE_SERVICE_ACCOUNT_FILE not set or file missing"]⟩, state0, false)
  else
    match env.calendarAuth with
    | .error e => (⟨0, ["Google Calendar auth: " ++ e]⟩, state0, false)
    | .ok _ =>
      match loginResult env with
      | .error e => (⟨0, ["Hatch login: " ++ e]⟩, state0, false)
      | .ok ld =>
        let p := processBabies env ld.babies state0
        (p.1, p.2, true)

/-- Result of one `run_sync` call: `.ok summary` when the function returns,
`.error e` when an exception escapes to the caller; `saveArgs` lists the
states passed to `_save_state`, in order. -/
structure RunResult where
  result : Except String RunSummary
  saveArgs : List SyncState

/-- Embedding of `run_sync` in `app/sync.py`. The final `_save_state(state)`
is not inside any `try`: when the save raises, the exception escapes. -/
def run_sync (env : SyncEnv) (state0 : SyncState) : RunResult :=
  let t := runSyncAux env state0
  if t.2.2 then
    match env.saveResult with
    | .ok _ => ⟨.ok t.1, [t.2.1]⟩
    | .error e => ⟨.error e, [t.2.1]⟩
  else ⟨.ok t.1, []⟩

/-- The in-memory state at the end of a cycle (the state `_save_state`
would receive; equal to the loaded state on the early-return paths). -/
def runFinalState (env : SyncEnv) (state0 : SyncState) : SyncState :=
  (runSyncAux env state0).2.1

/-- File-system operations, for describing what `_save_state` does on
disk. -/
inductive FsOp where
  | mkdirParents (path : String)
  | openTruncate (path : String)
  | jsonDump (path : String)
  | renameFile (src : String) (dst : String)
deriving DecidableEq, Repr

/-- The state file path (`sync_state.json`). -/
def STATE_FILE : String := "sync_state.json"

/-- The disk trace of `_save_state` in `app/sync.py`: make the parent
directory, `open(STATE_FILE, "w")` (which truncates the file in place),
then `json.dump` into it. -/
def save_state_ops : List FsOp :=
  [.mkdirParents "state_parent_dir", .openTruncate STATE_FILE, .jsonDump STATE_FILE]

/-- A write-temp-then-rename atomic save of `target`: every open/write
touches only a temporary path distinct from `target`, and the final
operation renames that path onto `target`. -/
def isWriteTempThenRename (ops : List FsOp) (target : String) : Bool :=
  match ops.getLast? with
  | some (.renameFile src dst) =>
    dst = target && src ≠ target &&
      ops.dropLast.all (fun op =>
        match op with
        | .openTruncate p => p ≠ target
        | .jsonDump p => p ≠ target
        | _ => true)
  | _ => false

/-! Lemmas about the per-kind record loop. -/

theorem mem_setAdd_self (l : List Rid) (x : Rid) : x ∈ setAdd l x := by
  unfold setAdd
  by_cases h : x ∈ l
  · simp [h]
  · simp [h]

theorem mem_setAdd_of_mem {l : List Rid} {x : Rid} (y : Rid) (h : x ∈ l) :
    x ∈ setAdd l y := by
  unfold setAdd
  by_cases hy : y ∈ l <;> simp [hy, h]

theorem mem_of_mem_setAdd {l : List Rid} {x y : Rid} (h : x ∈ setAdd l y) :
    x = y ∨ x ∈ l := by
  unfold setAdd at h
  by_cases hy : y ∈ l
  · simp [hy] at h
    exact Or.inr h
  · simp [hy] at h
    rcases h with h | h
    · exact Or.inr h
    · exact Or.inl h

section RecordLoop

variable {α : Type} (ins : CalendarEvent → Except String Unit)
variable (toEvent : α → CalendarEvent) (getId : α → Option Rid) (label : String)

theorem recordLoop_seen_mono {records : List α} {seen : List Rid} {x : Rid}
    (h : x ∈ seen) : x ∈ (recordLoop ins toEvent getId label records seen).seen := by
  induction records generalizing seen with
  | nil => simp [recordLoop, h]
  | cons r rest ih =>
    unfold recordLoop
    cases hgi : getId r with
    | none => exact ih h
    | some rid =>
      by_cases hseen : rid ∈ seen
      · simp [hseen]
        exact ih h
      · simp [hseen]
        cases hins : ins (toEvent r) with
        | ok u => exact ih (mem_setAdd_of_mem rid h)
        | error e => exact ih h

theorem recordLoop_seen_src {records : List α} {seen : List Rid} {x : Rid}
    (h : x ∈ (recordLoop ins toEvent getId label records seen).seen) :
    x ∈ seen ∨ ∃ r ∈ records, getId r = some x ∧ ins (toEvent r) = .ok () := by
  induction records generalizing seen with
  | nil =>
    simp [recordLoop] at h
    exact Or.inl h
  | cons r rest ih =>
    unfold recordLoop at h
    cases hgi : getId r with
    | none =>
      rw [hgi] at h
      rcases ih h with h | ⟨r', hr', hid', hok'⟩
      · exact Or.inl h
      · exact Or.inr ⟨r', List.mem_cons_of_mem r hr', hid', hok'⟩
    | some rid =>
      rw [hgi] at h
      by_cases hseen : rid ∈ seen
      · simp [hseen] at h
        rcases ih h with h | ⟨r', hr', hid', hok'⟩
        · exact Or.inl h
        · exact Or.inr ⟨r', List.mem_cons_of_mem r hr', hid', hok'⟩
      · simp [hseen] at h
        cases hins : ins (toEvent r) with
        | ok u =>
          rw [hins] at h
          simp at h
          rcases ih h with h | ⟨r', hr', hid', hok'⟩
          · rcases mem_of_mem_setAdd h with h | h
            · subst h
              exact Or.inr ⟨r, List.mem_cons_self r rest, hgi, by rw [hins]⟩
            · exact Or.inl h
          · exact Or.inr ⟨r', List.mem_cons_of_mem r hr', hid', hok'⟩
        | error e =>
          rw [hins] at h
          simp at h
          rcases ih h with h | ⟨r', hr', hid', hok'⟩
          · exact Or.inl h
          · exact Or.inr ⟨r', List.mem_cons_of_mem r hr', hid', hok'⟩

theorem recordLoop_all_seen {records : List α} {seen : List Rid}
    (h : ∀ r ∈ records, ∀ rid, getId r = some rid → rid ∈ seen) :
    recordLoop ins toEvent getId label records seen = ⟨0, [], seen⟩ := by
  induction records with
  | nil => simp [recordLoop]
  | cons r rest ih =>
    unfold recordLoop
    cases hgi : getId r with
    | none =>
      exact ih (fun r' hr' rid hrid => h r' (List.mem_cons_of_mem r hr') rid hrid)
    | some rid =>
      have : rid ∈ seen := h r (List.mem_cons_self r rest) rid hgi
      simp [this]
      exact ih (fun r' hr' rid' hrid' => h r' (List.mem_cons_of_mem r hr') rid' hrid')

theorem recordLoop_all_ok_mem {records : List α} {seen : List Rid} {r : α} {rid : Rid}
    (hins : ∀ ev, ins ev = .ok ()) (hr : r ∈ records) (hid : getId r = some rid) :
    rid ∈ (recordLoop ins toEvent getId label records seen).seen := by
  induction records generalizing seen with
  | nil => cases hr
  | cons a rest ih =>
    unfold recordLoop
    rcases List.mem_cons.mp hr with h | h
    · subst h
      rw [hid]
      by_cases hseen : rid ∈ seen
      · simp [hseen]
        exact recordLoop_seen_mono ins toEvent getId label hseen
      · simp [hseen, hins (toEvent r)]
        exact recordLoop_seen_mono ins toEvent getId label (mem_setAdd_self seen rid)
    · cases hga : getId a with
      | none => exact ih h
      | some rida =>
        by_cases hseen : rida ∈ seen
        · simp [hseen]
          exact ih h
        · simp [hseen, hins (toEvent a)]
          exact ih h

theorem nodup_filterMap_tail {a : α} {rest : List α}
    (h : ((a :: rest).filterMap getId).Nodup) : (rest.filterMap getId).Nodup := by
  cases hga : getId a with
  | none => rwa [List.filterMap_cons_none hga] at h
  | some rid =>
    rw [List.filterMap_cons_some hga] at h
    exact h.of_cons

theorem nodup_id_unique {records : List α} (h : (records.filterMap getId).Nodup)
    {r r' : α} (hr : r ∈ records) (hr' : r' ∈ records) {rid : Rid}
    (h1 : getId r = some rid) (h2 : getId r' = some rid) : r = r' := by
  induction records with
  | nil => cases hr
  | cons a rest ih =>
    rcases List.mem_cons.mp hr with ha | ha <;> rcases List.mem_cons.mp hr' with ha' | ha'
    · rw [ha, ha']
    · exfalso
      subst ha
      rw [List.filterMap_cons_some h1] at h
      exact h.not_mem (List.mem_filterMap.mpr ⟨r', ha', h2⟩)
    · exfalso
      subst ha'
      rw [List.filterMap_cons_some h2] at h
      exact h.not_mem (List.mem_filterMap.mpr ⟨r, ha, h1⟩)
    · exact ih (nodup_filterMap_tail getId h) ha ha'

theorem recordLoop_error_mem {records : List α} {seen : List Rid} {r : α} {rid : Rid}
    {e : String} (hnodup : (records.filterMap getId).Nodup) (hr : r ∈ records)
    (hid : getId r = some rid) (hnew : rid ∉ seen)
    (hfail : ins (toEvent r) = .error e) :
    (label ++ " event " ++ ridStr rid ++ ": " ++ e) ∈
      (recordLoop ins toEvent getId label records seen).errors := by
  induction records generalizing seen with
  | nil => cases hr
  | cons a rest ih =>
    unfold recordLoop
    rcases List.mem_cons.mp hr with ha | ha
    · subst ha
      rw [hid]
      simp [hnew, hfail]
    · cases hga : getId a with
      | none => exact ih (nodup_filterMap_tail getId hnodup) ha hnew
      | some rida =>
        by_cases hseen : rida ∈ seen
        · simp [hseen]
          exact ih (nodup_filterMap_tail getId hnodup) ha hnew
        · have hne : rid ≠ rida := by
            intro hcontra
            subst hcontra
            rw [List.filterMap_cons_some hga] at hnodup
            exact hnodup.not_mem (List.mem_filterMap.mpr ⟨r, ha, hid⟩)
          cases hins : ins (toEvent a) with
          | ok u =>
            simp [hseen, hins]
            have hnew' : rid ∉ setAdd seen rida := by
              intro hcontra
              rcases mem_of_mem_setAdd hcontra with h | h
              · exact hne h
              · exact hnew h
            exact ih (nodup_filterMap_tail getId hnodup) ha hnew'
          | error e' =>
            simp [hseen, hins]
            exact Or.inr (ih (nodup_filterMap_tail getId hnodup) ha hnew)

theorem recordLoop_fail_not_seen {records : List α} {seen : List Rid} {r : α}
    {rid : Rid} {e : String} (hnodup : (records.filterMap getId).Nodup)
    (hr : r ∈ records) (hid : getId r = some rid) (hnew : rid ∉ seen)
    (hfail : ins (toEvent r) = .error e) :
    rid ∉ (recordLoop ins toEvent getId label records seen).seen := by
  intro hmem
  rcases recordLoop_seen_src ins toEvent getId label hmem with h | ⟨r', hr', hid', hok'⟩
  · exact hnew h
  · have : r' = r := nodup_id_unique getId hnodup hr' hr hid' hid
    subst this
    rw [hok'] at hfail
    cases hfail

theorem recordLoop_ok_mem {records : List α} {seen : List Rid} {r : α} {rid : Rid}
    (hr : r ∈ records) (hid : getId r = some rid)
    (hok : ins (toEvent r) = .ok ()) :
    rid ∈ (recordLoop ins toEvent getId label records seen).seen := by
  induction records generalizing seen with
  | nil => cases hr
  | cons a rest ih =>
    unfold recordLoop
    rcases List.mem_cons.mp hr with ha | ha
    · subst ha
      rw [hid]
      by_cases hseen : rid ∈ seen
      · simp [hseen]
        exact recordLoop_seen_mono ins toEvent getId label hseen
      · simp [hseen, hok]
        exact recordLoop_seen_mono ins toEvent getId label (mem_setAdd_self seen rid)
    · cases hga : getId a with
      | none => exact ih ha
      | some rida =>
        by_cases hseen : rida ∈ seen
        · simp [hseen]
          exact ih ha
        · cases hins : ins (toEvent a) with
          | ok u =>
            simp [hseen, hins]
            exact ih ha
          | error e' =>
            simp [hseen, hins]
            exact ih ha

theorem recordLoop_drop_failed {pre post : List α} {seen : List Rid} {r : α}
    {rid : Rid} {e : String}
    (hnodup : (((pre ++ r :: post)).filterMap getId).Nodup)
    (hid : getId r = some rid) (hnew : rid ∉ seen)
    (hfail : ins (toEvent r) = .error e) :
    (recordLoop ins toEvent getId label (pre ++ r :: post) seen).created =
      (recordLoop ins toEvent getId label (pre ++ post) seen).created ∧
    (recordLoop ins toEvent getId label (pre ++ r :: post) seen).seen =
      (recordLoop ins toEvent getId label (pre ++ post) seen).seen := by
  induction pre generalizing seen with
  | nil =>
    simp only [List.nil_append]
    simp only [recordLoop, hid, hfail]
    simp [hnew]
  | cons a pre' ih =>
    have hmem_r : rid ∈ ((pre' ++ r :: post).filterMap getId) :=
      List.mem_filterMap.mpr ⟨r, by simp, hid⟩
    simp only [List.cons_append]
    unfold recordLoop
    cases hga : getId a with
    | none => exact ih (nodup_filterMap_tail getId (by simpa using hnodup)) hnew
    | some rida =>
      have htail : ((pre' ++ r :: post).filterMap getId).Nodup :=
        nodup_filterMap_tail getId (by simpa using hnodup)
      by_cases hseen : rida ∈ seen
      · simp [hseen]
        exact ih htail hnew
      · have hne : rid ≠ rida := by
          intro hcontra
          subst hcontra
          have : ((a :: (pre' ++ r :: post)).filterMap getId).Nodup := by simpa using hnodup
          rw [List.filterMap_cons_some hga] at this
          exact this.not_mem hmem_r
        cases hins : ins (toEvent a) with
        | ok u =>
          simp only [hseen, if_neg hseen, hins]
          have hnew' : rid ∉ setAdd seen rida := by
            intro hcontra
            rcases mem_of_mem_setAdd hcontra with h | h
            · exact hne h
            · exact hnew h
          have := ih htail hnew'
          simp [this.1, this.2]
        | error e' =>
          simp only [hseen, if_neg hseen, hins]
          have := ih htail hnew
          simp [this.1, this.2]

end RecordLoop

/-! Lemmas about the state writes of one cycle. -/

/-- Membership-wise inclusion of sync states. -/
def stateLe (st st' : SyncState) : Prop := ∀ k x, x ∈ st k → x ∈ st' k

theorem stateLe_refl (st : SyncState) : stateLe st st := fun _ _ h => h

theorem stateLe_trans {s1 s2 s3 : SyncState} (h1 : stateLe s1 s2) (h2 : stateLe s2 s3) :
    stateLe s1 s3 := fun k x h => h2 k x (h1 k x h)

theorem stateLe_setSeen {α : Type} (ins : CalendarEvent → Except String Unit)
    (toEvent : α → CalendarEvent) (getId : α → Option Rid) (label : String)
    (records : List α) (st : SyncState) (babyId : Int) (dataType : String) :
    stateLe st (setSeenIds st babyId dataType
      (recordLoop ins toEvent getId label records (getSeenIds st babyId dataType)).seen) := by
  intro k x hx
  unfold setSeenIds stateSet
  by_cases hk : k = stateKey babyId dataType
  · subst hk
    simp only [if_pos rfl]
    exact recordLoop_seen_mono ins toEvent getId label
      (by unfold getSeenIds; exact List.mem_dedup.mpr hx)
  · simpa [hk] using hx

theorem mem_setSeen_write {α : Type} {ins : CalendarEvent → Except String Unit}
    {toEvent : α → CalendarEvent} {getId : α → Option Rid} {label : String}
    {records : List α} {st : SyncState} {babyId : Int} {dataType : String} {x : Rid}
    (h : x ∈ (recordLoop ins toEvent getId label records (getSeenIds st babyId dataType)).seen) :
    x ∈ (setSeenIds st babyId dataType
      (recordLoop ins toEvent getId label records (getSeenIds st babyId dataType)).seen)
        (stateKey babyId dataType) := by
  unfold setSeenIds stateSet
  simpa using h

theorem mem_setSeen_src {α : Type} {ins : CalendarEvent → Except String Unit}
    {toEvent : α → CalendarEvent} {getId : α → Option Rid} {label : String}
    {records : List α} {st : SyncState} {babyId : Int} {dataType : String}
    {k : String} {x : Rid}
    (h : x ∈ (setSeenIds st babyId dataType
      (recordLoop ins toEvent getId label records (getSeenIds st babyId dataType)).seen) k) :
    x ∈ st k ∨ (k = stateKey babyId dataType ∧ x ∈ records.filterMap getId) := by
  unfold setSeenIds stateSet at h
  by_cases hk : k = stateKey babyId dataType
  · subst hk
    simp only [if_pos rfl] at h
    rcases recordLoop_seen_src ins toEvent getId label h with h | ⟨r, hr, hid, _⟩
    · exact Or.inl (by unfold getSeenIds at h; exact List.mem_dedup.mp h)
    · exact Or.inr ⟨rfl, List.mem_filterMap.mpr ⟨r, hr, hid⟩⟩
  · simp only [if_neg hk] at h
    exact Or.inl h

theorem stateLe_kindStep {α : Type} (ins : CalendarEvent → Except String Unit)
    (toEvent : α → CalendarEvent) (getId : α → Option Rid) (label dataType : String)
    (records : List α) (babyId : Int) (sm : RunSummary × SyncState) :
    stateLe sm.2 (kindStep ins toEvent getId label dataType records babyId sm).2 :=
  stateLe_setSeen ins toEvent getId label records sm.2 babyId dataType

theorem stateLe_processBaby (env : SyncEnv) (acc : RunSummary × SyncState) (b : Baby) :
    stateLe acc.2 (processBaby env acc b).2 := by
  unfold processBaby
  cases hcal : env.calendarFor b with
  | error e => exact stateLe_refl _
  | ok calId =>
    simp only []
    exact stateLe_trans (stateLe_kindStep _ _ _ _ _ _ _ _)
      (stateLe_trans (stateLe_kindStep _ _ _ _ _ _ _ _)
        (stateLe_trans (stateLe_kindStep _ _ _ _ _ _ _ _)
          (stateLe_kindStep _ _ _ _ _ _ _ _)))

theorem stateLe_foldl (env : SyncEnv) (babies : List Baby) (acc : RunSummary × SyncState) :
    stateLe acc.2 (babies.foldl (processBaby env) acc).2 := by
  induction babies generalizing acc with
  | nil => exact stateLe_refl _
  | cons b rest ih =>
    exact stateLe_trans (stateLe_processBaby env acc b) (ih (processBaby env acc b))

/-- All ids of one baby's fetched bundle are recorded in the state, kind by
kind: what `run_sync` guarantees for a fully successful baby. -/
def bundleCovered (env : SyncEnv) (b : Baby) (st : SyncState) : Prop :=
  (∀ d ∈ (babyBundle env b).diapers, ∀ rid, d.id = some rid →
    rid ∈ st (stateKey b.id "diaper")) ∧
  (∀ f ∈ (babyBundle env b).feedings, ∀ rid, f.id = some rid →
    rid ∈ st (stateKey b.id "feeding")) ∧
  (∀ sl ∈ (babyBundle env b).sleeps, ∀ rid, sl.id = some rid →
    rid ∈ st (stateKey b.id "sleep")) ∧
  (∀ w ∈ (babyBundle env b).weights, ∀ rid, w.id = some rid →
    rid ∈ st (stateKey b.id "weight"))

theorem bundleCovered_mono {env : SyncEnv} {b : Baby} {st st' : SyncState}
    (h : bundleCovered env b st) (hle : stateLe st st') : bundleCovered env b st' := by
  obtain ⟨h1, h2, h3, h4⟩ := h
  exact ⟨fun d hd rid hrid => hle _ _ (h1 d hd rid hrid),
    fun f hf rid hrid => hle _ _ (h2 f hf rid hrid),
    fun sl hs rid hrid => hle _ _ (h3 sl hs rid hrid),
    fun w hw rid hrid => hle _ _ (h4 w hw rid hrid)⟩

theorem kindStep_covers {α : Type} {ins : CalendarEvent → Except String Unit}
    {toEvent : α → CalendarEvent} {getId : α → Option Rid} {label dataType : String}
    {records : List α} {babyId : Int} (sm : RunSummary × SyncState)
    (hins : ∀ ev, ins ev = .ok ()) {r : α} {rid : Rid} (hr : r ∈ records)
    (hid : getId r = some rid) :
    rid ∈ (kindStep ins toEvent getId label dataType records babyId sm).2
      (stateKey babyId dataType) :=
  mem_setSeen_write (recordLoop_all_ok_mem ins toEvent getId label hins hr hid)

theorem processBaby_covers (env : SyncEnv) (acc : RunSummary × SyncState) (b : Baby)
    (hins : ∀ c ev, env.insertEvent c ev = .ok ()) {calId : String}
    (hcal : env.calendarFor b = .ok calId) :
    bundleCovered env b (processBaby env acc b).2 := by
  unfold processBaby
  rw [hcal]
  simp only []
  refine ⟨?_, ?_, ?_, ?_⟩
  · intro d hd rid hrid
    exact stateLe_kindStep _ _ _ _ _ _ _ _ _ _
      (stateLe_kindStep _ _ _ _ _ _ _ _ _ _
        (stateLe_kindStep _ _ _ _ _ _ _ _ _ _
          (kindStep_covers _ (hins calId) hd hrid)))
  · intro f hf rid hrid
    exact stateLe_kindStep _ _ _ _ _ _ _ _ _ _
      (stateLe_kindStep _ _ _ _ _ _ _ _ _ _
        (kindStep_covers _ (hins calId) hf hrid))
  · intro sl hs rid hrid
    exact stateLe_kindStep _ _ _ _ _ _ _ _ _ _
      (kindStep_covers _ (hins calId) hs hrid)
  · intro w hw rid hrid
    exact kindStep_covers _ (hins calId) hw hrid

theorem processBabies_covers (env : SyncEnv)
    (hins : ∀ c ev, env.insertEvent c ev = .ok ()) (babies : List Baby)
    (acc : RunSummary × SyncState) :
    ∀ b ∈ babies, ∀ calId, env.calendarFor b = .ok calId →
      bundleCovered env b (babies.foldl (processBaby env) acc).2 := by
  induction babies generalizing acc with
  | nil => intro b hb; cases hb
  | cons a rest ih =>
    intro b hb calId hcal
    rcases List.mem_cons.mp hb with hb | hb
    · subst hb
      simp only [List.foldl_cons]
      exact bundleCovered_mono (processBaby_covers env acc b hins hcal)
        (stateLe_foldl env rest _)
    · exact ih (processBaby env acc a) b hb calId hcal

theorem kindStep_zero {α : Type} {ins : CalendarEvent → Except String Unit}
    {toEvent : α → CalendarEvent} {getId : α → Option Rid} {label dataType : String}
    {records : List α} {babyId : Int} (sm : RunSummary × SyncState)
    (hcov : ∀ r ∈ records, ∀ rid, getId r = some rid →
      rid ∈ sm.2 (stateKey babyId dataType)) :
    (kindStep ins toEvent getId label dataType records babyId sm).1.events_created =
      sm.1.events_created := by
  unfold kindStep
  rw [recordLoop_all_seen ins toEvent getId label
    (fun r hr rid hrid => by
      unfold getSeenIds
      exact List.mem_dedup.mpr (hcov r hr rid hrid))]
  simp

theorem processBaby_zero (env : SyncEnv) (acc : RunSummary × SyncState) (b : Baby)
    (hb : ∀ calId, env.calendarFor b = .ok calId → bundleCovered env b acc.2) :
    (processBaby env acc b).1.events_created = acc.1.events_created := by
  unfold processBaby
  cases hcal : env.calendarFor b with
  | error e => rfl
  | ok calId =>
    obtain ⟨h1, h2, h3, h4⟩ := hb calId hcal
    simp only []
    rw [kindStep_zero, kindStep_zero, kindStep_zero, kindStep_zero]
    · exact fun d hd rid hrid => h1 d hd rid hrid
    · exact fun f hf rid hrid =>
        stateLe_kindStep _ _ _ _ _ _ _ _ _ _ (h2 f hf rid hrid)
    · exact fun sl hs rid hrid =>
        stateLe_kindStep _ _ _ _ _ _ _ _ _ _
          (stateLe_kindStep _ _ _ _ _ _ _ _ _ _ (h3 sl hs rid hrid))
    · exact fun w hw rid hrid =>
        stateLe_kindStep _ _ _ _ _ _ _ _ _ _
          (stateLe_kindStep _ _ _ _ _ _ _ _ _ _
            (stateLe_kindStep _ _ _ _ _ _ _ _ _ _ (h4 w hw rid hrid)))

theorem processBabies_zero (env : SyncEnv) (stBase : SyncState) :
    ∀ (babies : List Baby) (acc : RunSummary × SyncState),
      (∀ b ∈ babies, ∀ calId, env.calendarFor b = .ok calId →
        bundleCovered env b stBase) →
      stateLe stBase acc.2 →
      (babies.foldl (processBaby env) acc).1.events_created = acc.1.events_created := by
  intro babies
  induction babies with
  | nil => intro acc _ _; rfl
  | cons a rest ih =>
    intro acc hcov hle
    simp only [List.foldl_cons]
    have hstep : (processBaby env acc a).1.events_created = acc.1.events_created :=
      processBaby_zero env acc a (fun calId hcal =>
        bundleCovered_mono (hcov a (List.mem_cons_self a rest) calId hcal) hle)
    rw [ih (processBaby env acc a)
      (fun b hb calId hcal => hcov b (List.mem_cons_of_mem a hb) calId hcal)
      (stateLe_trans hle (stateLe_processBaby env acc a)), hstep]

/-! Provenance: where an id in the final state can come from. -/

theorem kindStep_src {α : Type} {ins : CalendarEvent → Except String Unit}
    {toEvent : α → CalendarEvent} {getId : α → Option Rid} {label dataType : String}
    {records : List α} {babyId : Int} {sm : RunSummary × SyncState} {k : String}
    {x : Rid}
    (h : x ∈ (kindStep ins toEvent getId label dataType records babyId sm).2 k) :
    x ∈ sm.2 k ∨ (k = stateKey babyId dataType ∧ x ∈ records.filterMap getId) :=
  mem_setSeen_src h

/-- The kinds of state writes one baby can perform. -/
def babyProv (env : SyncEnv) (b : Baby) (k : String) (x : Rid) : Prop :=
  (k = stateKey b.id "diaper" ∧ x ∈ (babyBundle env b).diapers.filterMap DiaperEntry.id) ∨
  (k = stateKey b.id "feeding" ∧ x ∈ (babyBundle env b).feedings.filterMap FeedingEntry.id) ∨
  (k = stateKey b.id "sleep" ∧ x ∈ (babyBundle env b).sleeps.filterMap SleepEntry.id) ∨
  (k = stateKey b.id "weight" ∧ x ∈ (babyBundle env b).weights.filterMap WeightEntry.id)

theorem processBaby_src (env : SyncEnv) (acc : RunSummary × SyncState) (b : Baby)
    {k : String} {x : Rid} (h : x ∈ (processBaby env acc b).2 k) :
    x ∈ acc.2 k ∨ babyProv env b k x := by
  unfold processBaby at h
  cases hcal : env.calendarFor b with
  | error e =>
    rw [hcal] at h
    exact Or.inl h
  | ok calId =>
    rw [hcal] at h
    simp only [] at h
    rcases kindStep_src h with h | ⟨hk, hmem⟩
    · rcases kindStep_src h with h | ⟨hk, hmem⟩
      · rcases kindStep_src h with h | ⟨hk, hmem⟩
        · rcases kindStep_src h with h | ⟨hk, hmem⟩
          · exact Or.inl h
          · exact Or.inr (Or.inl ⟨hk, hmem⟩)
        · exact Or.inr (Or.inr (Or.inl ⟨hk, hmem⟩))
      · exact Or.inr (Or.inr (Or.inr (Or.inl ⟨hk, hmem⟩)))
    · exact Or.inr (Or.inr (Or.inr (Or.inr ⟨hk, hmem⟩)))

theorem processBabies_src (env : SyncEnv) :
    ∀ (babies : List Baby) (acc : RunSummary × SyncState) {k : String} {x : Rid},
      x ∈ (babies.foldl (processBaby env) acc).2 k →
      x ∈ acc.2 k ∨ ∃ b ∈ babies, babyProv env b k x := by
  intro babies
  induction babies with
  | nil =>
    intro acc k x h
    exact Or.inl h
  | cons a rest ih =>
    intro acc k x h
    simp only [List.foldl_cons] at h
    rcases ih (processBaby env acc a) h with h | ⟨b, hb, hprov⟩
    · rcases processBaby_src env acc a h with h | hprov
      · exact Or.inl h
      · exact Or.inr ⟨a, List.mem_cons_self a rest, hprov⟩
    · exact Or.inr ⟨b, List.mem_cons_of_mem a hb, hprov⟩

/-! The four early-return branches of `run_sync` and the processing
branch, as rewrite equations. -/

theorem runSyncAux_early_creds (env : SyncEnv) (st0 : SyncState)
    (h1 : (truthy env.hatchEmail).isNone ∨ (truthy env.hatchPassword).isNone) :
    runSyncAux env st0 =
      (⟨0, ["HATCH_EMAIL and HATCH_PASSWORD required"]⟩, st0, false) := by
  unfold runSyncAux
  rw [if_pos h1]

theorem runSyncAux_early_sa (env : SyncEnv) (st0 : SyncState)
    (h1 : ¬((truthy env.hatchEmail).isNone ∨ (truthy env.hatchPassword).isNone))
    (h2 : env.serviceAccountOk = false) :
    runSyncAux env st0 =
      (⟨0, ["GOOGLE_SERVICE_ACCOUNT_FILE not set or file missing"]⟩, st0, false) := by
  unfold runSyncAux
  rw [if_neg h1]
  simp [h2]

theorem runSyncAux_early_gauth (env : SyncEnv) (st0 : SyncState)
    (h1 : ¬((truthy env.hatchEmail).isNone ∨ (truthy env.hatchPassword).isNone))
    (h2 : env.serviceAccountOk = true) {e : String}
    (h3 : env.calendarAuth = .error e) :
    runSyncAux env st0 = (⟨0, ["Google Calendar auth: " ++ e]⟩, st0, false) := by
  unfold runSyncAux
  rw [if_neg h1]
  simp [h2, h3]

theorem runSyncAux_early_login (env : SyncEnv) (st0 : SyncState)
    (h1 : ¬((truthy env.hatchEmail).isNone ∨ (truthy env.hatchPassword).isNone))
    (h2 : env.serviceAccountOk = true) {u : Unit} (h3 : env.calendarAuth = .ok u)
    {e : String} (h4 : loginResult env = .error e) :
    runSyncAux env st0 = (⟨0, ["Hatch login: " ++ e]⟩, st0, false) := by
  unfold runSyncAux
  rw [if_neg h1]
  simp [h2, h3, h4]

theorem runSyncAux_processing (env : SyncEnv) (st0 : SyncState)
    (h1 : ¬((truthy env.hatchEmail).isNone ∨ (truthy env.hatchPassword).isNone))
    (h2 : env.serviceAccountOk = true) {u : Unit} (h3 : env.calendarAuth = .ok u)
    {ld : LoginData} (h4 : loginResult env = .ok ld) :
    runSyncAux env st0 =
      ((processBabies env ld.babies st0).1, (processBabies env ld.babies st0).2, true) := by
  unfold runSyncAux
  rw [if_neg h1]
  simp [h2, h3, h4]

theorem stateLe_runFinalState (env : SyncEnv) (st0 : SyncState) :
    stateLe st0 (runFinalState env st0) := by
  unfold runFinalState
  by_cases h1 : (truthy env.hatchEmail).isNone ∨ (truthy env.hatchPassword).isNone
  · rw [runSyncAux_early_creds env st0 h1]
    exact stateLe_refl st0
  · cases h2 : env.serviceAccountOk with
    | false =>
      rw [runSyncAux_early_sa env st0 h1 h2]
      exact stateLe_refl st0
    | true =>
      cases h3 : env.calendarAuth with
      | error e =>
        rw [runSyncAux_early_gauth env st0 h1 h2 h3]
        exact stateLe_refl st0
      | ok u =>
        cases h4 : loginResult env with
        | error e =>
          rw [runSyncAux_early_login env st0 h1 h2 h3 h4]
          exact stateLe_refl st0
        | ok ld =>
          rw [runSyncAux_processing env st0 h1 h2 h3 h4]
          exact stateLe_foldl env ld.babies (⟨0, []⟩, st0)

/-! The claims. -/

/-- C2: for every (subject, kind) key, the seen set in `SyncState` never
shrinks: every identifier present in the state loaded at the start of a
`run_sync` cycle is still present in the state at the end of that cycle
(the state passed to `_save_state`), regardless of which records are
fetched or which inserts fail. -/
theorem sync_state_monotonic (env : SyncEnv) (st0 : SyncState) (k : String) (x : Rid)
    (h : x ∈ st0 k) : x ∈ runFinalState env st0 k :=
  stateLe_runFinalState env st0 k x h

/-- Environment for the C2 witness: one baby whose diaper fetch returns a
fresh record, so the cycle really writes the state. -/
def envMonW : SyncEnv :=
  { hatchEmail := some "e"
    hatchPassword := some "p"
    cachedLogin := some { token := "t", babies := [{ id := 7 }] }
    calendarFor := fun _ => .ok "cal"
    httpDiapers := fun _ => .ok (some "success")
      (some { diapers := some [{ id := some (.int 2) }] }) }

/-- Initial state for the C2 witness: id 1 already seen for diapers. -/
def stMonW : SyncState := stateSet emptyState "baby_7_diaper" [Rid.int 1]

theorem sync_state_monotonic_witness :
    Rid.int 1 ∈ runFinalState envMonW stMonW "baby_7_diaper" :=
  sync_state_monotonic envMonW stMonW "baby_7_diaper" (Rid.int 1) (by decide)

/-- C10: a fetched record whose `id` key is absent is silently skipped by
the `run_sync` per-kind loop: removing it from the batch changes nothing —
no event insert, no error string, no count increment, and no addition to
the seen set. -/
theorem missing_id_records_skipped {α : Type} (ins : CalendarEvent → Except String Unit)
    (toEvent : α → CalendarEvent) (getId : α → Option Rid) (label : String)
    (xs ys : List α) (r : α) (seen : List Rid) (h : getId r = none) :
    recordLoop ins toEvent getId label (xs ++ r :: ys) seen =
      recordLoop ins toEvent getId label (xs ++ ys) seen := by
  induction xs generalizing seen with
  | nil =>
    simp only [List.nil_append]
    simp only [recordLoop, h]
  | cons a xs ih =>
    simp only [List.cons_append]
    cases hga : getId a with
    | none =>
      simp only [recordLoop, hga]
      exact ih seen
    | some rida =>
      simp only [recordLoop, hga]
      by_cases hseen : rida ∈ seen
      · simp only [if_pos hseen]
        exact ih seen
      · simp only [if_neg hseen]
        cases hins : ins (toEvent a) with
        | ok u => simp [ih]
        | error e => simp [ih]

/-- Record with a missing id used by the C10 witness. -/
def noIdDiaper : DiaperEntry := { diaperType := some "Wet" }

theorem missing_id_records_skipped_witness :
    recordLoop (fun _ => .ok ()) (diaper_to_event 0) DiaperEntry.id "Diaper"
      ([{ id := some (.int 1) }] ++ noIdDiaper :: []) [] =
    recordLoop (fun _ => .ok ()) (diaper_to_event 0) DiaperEntry.id "Diaper"
      ([{ id := some (.int 1) }] ++ []) [] :=
  missing_id_records_skipped (fun _ => .ok ()) (diaper_to_event 0) DiaperEntry.id
    "Diaper" [{ id := some (.int 1) }] [] noIdDiaper [] rfl

/-- C9: the adapters tolerate a missing end time by substituting a fixed
block: the end defaults to start plus 5 minutes for diaper and weight,
start plus 30 minutes for a feeding with no truthy `endTime`, and start
plus 60 minutes for a sleep record none of whose end-time keys is truthy;
being total Lean functions, the embedded adapters return rather than
raise on any such record. -/
theorem adapters_default_missing_end_times (now : DT) :
    (∀ entry : DiaperEntry,
      (diaper_to_event now entry).endDt = addMinutes (diaper_to_event now entry).start 5) ∧
    (∀ entry : WeightEntry,
      (weight_to_event now entry).endDt = addMinutes (weight_to_event now entry).start 5) ∧
    (∀ entry : FeedingEntry, truthy entry.endTime = none →
      (feeding_to_event now entry).endDt = addMinutes (feeding_to_event now entry).start 30) ∧
    (∀ entry : SleepEntry,
      orStr entry.endTime (orStr entry.endF (orStr entry.updateDate "")) = "" →
      (sleep_to_event now entry).endDt = addMinutes (sleep_to_event now entry).start 60) := by
  refine ⟨fun entry => rfl, fun entry => rfl, ?_, ?_⟩
  · intro entry h
    simp [feeding_to_event, h]
  · intro entry h
    simp [sleep_to_event, h]

theorem adapters_default_missing_end_times_witness :
    (feeding_to_event 0 { startTime := some "2024-01-02 03:04:05" }).endDt =
      addMinutes (feeding_to_event 0 { startTime := some "2024-01-02 03:04:05" }).start 30 ∧
    (sleep_to_event 0 { startTime := some "2024-01-02 03:04:05" }).endDt =
      addMinutes (sleep_to_event 0 { startTime := some "2024-01-02 03:04:05" }).start 60 :=
  ⟨(adapters_default_missing_end_times 0).2.2.1 _ rfl,
   (adapters_default_missing_end_times 0).2.2.2 _ rfl⟩

theorem parseHatchDT_indep {s : String} (h : (parseDT? s).isSome) (n1 n2 : DT) :
    parseHatchDT n1 s = parseHatchDT n2 s := by
  obtain ⟨dt, hdt⟩ := Option.isSome_iff_exists.mp h
  simp [parseHatchDT, hdt]

/-- C8 counterexample: `diaper_to_event` applied to a record with no date
keys incorporates the wall clock (`datetime.utcnow()` inside
`_parse_hatch_dt`), so two invocations at different times yield different
tuples — the adapters are not deterministic for every record value. -/
theorem adapters_not_deterministic_on_missing_timestamp :
    diaper_to_event 0 {} ≠ diaper_to_event 60 {} := by decide

/-- C8 amended: each adapter is deterministic on every record whose
consulted timestamp strings parse: the result does not depend on the
invocation time. Only when a timestamp is absent or unparseable does
`_parse_hatch_dt` substitute the current time, making the output
time-dependent. -/
theorem adapters_deterministic_on_parsed_timestamps :
    (∀ (n1 n2 : DT) (entry : DiaperEntry),
      (parseDT? (orStr entry.diaperDate (orStr entry.createDate ""))).isSome →
      diaper_to_event n1 entry = diaper_to_event n2 entry) ∧
    (∀ (n1 n2 : DT) (entry : WeightEntry),
      (parseDT? (orStr entry.createDate (orStr entry.weightDate ""))).isSome →
      weight_to_event n1 entry = weight_to_event n2 entry) ∧
    (∀ (n1 n2 : DT) (entry : FeedingEntry),
      (parseDT? (orStr entry.startTime (orStr entry.createDate ""))).isSome →
      (∀ er, truthy entry.endTime = some er → (parseDT? er).isSome) →
      feeding_to_event n1 entry = feeding_to_event n2 entry) ∧
    (∀ (n1 n2 : DT) (entry : SleepEntry),
      (parseDT? (orStr entry.startTime (orStr entry.start (orStr entry.createDate "")))).isSome →
      (orStr entry.endTime (orStr entry.endF (orStr entry.updateDate "")) = "" ∨
        (parseDT? (orStr entry.endTime (orStr entry.endF (orStr entry.updateDate "")))).isSome) →
      sleep_to_event n1 entry = sleep_to_event n2 entry) := by
  refine ⟨?_, ?_, ?_, ?_⟩
  · intro n1 n2 entry h
    simp only [diaper_to_event]
    rw [parseHatchDT_indep h n1 n2]
  · intro n1 n2 entry h
    simp only [weight_to_event]
    rw [parseHatchDT_indep h n1 n2]
  · intro n1 n2 entry hstart hend
    cases htr : truthy entry.endTime with
    | none =>
      simp only [feeding_to_event, htr]
      rw [parseHatchDT_indep hstart n1 n2]
    | some er =>
      simp only [feeding_to_event, htr]
      rw [parseHatchDT_indep hstart n1 n2, parseHatchDT_indep (hend er htr) n1 n2]
  · intro n1 n2 entry hstart hend
    rcases hend with hend | hend
    · simp only [sleep_to_event, hend, if_pos]
      rw [parseHatchDT_indep hstart n1 n2]
    · have hne : orStr entry.endTime (orStr entry.endF (orStr entry.updateDate "")) ≠ "" := by
        intro hc
        rw [hc] at hend
        simp [parseDT?] at hend
      simp only [sleep_to_event, if_neg hne]
      rw [parseHatchDT_indep hstart n1 n2, parseHatchDT_indep hend n1 n2]

theorem adapters_deterministic_on_parsed_timestamps_witness :
    diaper_to_event 0 { diaperDate := some "2024-01-02 03:04:05" } =
      diaper_to_event 999 { diaperDate := some "2024-01-02 03:04:05" } :=
  adapters_deterministic_on_parsed_timestamps.1 0 999 _ (by decide)

/-- C5 counterexample: `_save_state` is not an atomic
write-temp-then-rename — its disk trace truncates `sync_state.json` in
place with `open(..., "w")` before writing, so a crash mid-write can leave
a truncated state file. -/
theorem save_state_not_temp_rename :
    isWriteTempThenRename save_state_ops STATE_FILE = false ∧
    FsOp.openTruncate STATE_FILE ∈ save_state_ops := by decide

/-- C5 amended: `_save_state` persists the full state with a single
in-place truncate-and-write (not temp-then-rename, so a crash mid-write
can truncate the store), and it is invoked exactly once per completed
cycle — after all subjects and kinds are processed, with the final
in-memory state — and not at all when an early `return` fires. -/
theorem save_state_in_place_once_per_cycle (env : SyncEnv) (st0 : SyncState) :
    (FsOp.openTruncate STATE_FILE ∈ save_state_ops ∧
      ∀ s d, FsOp.renameFile s d ∉ save_state_ops) ∧
    ((run_sync env st0).saveArgs = [] ∨
      (run_sync env st0).saveArgs = [runFinalState env st0]) ∧
    ((runSyncAux env st0).2.2 = true →
      (run_sync env st0).saveArgs = [runFinalState env st0]) := by
  refine ⟨⟨by decide, ?_⟩, ?_, ?_⟩
  · intro s d h
    simp [save_state_ops, STATE_FILE] at h
  · by_cases ht : (runSyncAux env st0).2.2 = true
    · cases hs : env.saveResult with
      | ok u => exact Or.inr (by simp [run_sync, ht, hs, runFinalState])
      | error e => exact Or.inr (by simp [run_sync, ht, hs, runFinalState])
    · exact Or.inl (by simp [run_sync, ht])
  · intro ht
    cases hs : env.saveResult with
    | ok u => simp [run_sync, ht, hs, runFinalState]
    | error e => simp [run_sync, ht, hs, runFinalState]

/-- Environment for the C5 witness: valid configuration, empty baby list,
so the cycle completes and reaches the save. -/
def envCompleteW : SyncEnv :=
  { hatchEmail := some "e"
    hatchPassword := some "p"
    cachedLogin := some { token := "t" } }

theorem save_state_in_place_once_per_cycle_witness :
    (run_sync envCompleteW emptyState).saveArgs =
      [runFinalState envCompleteW emptyState] :=
  (save_state_in_place_once_per_cycle envCompleteW emptyState).2.2 rfl

/-- Environment for the C4 counterexample: valid configuration and a
state save that raises. -/
def envSaveFailW : SyncEnv :=
  { hatchEmail := some "e"
    hatchPassword := some "p"
    cachedLogin := some { token := "t" }
    saveResult := .error "disk full" }

/-- C4 counterexample: when `_save_state` raises, `run_sync` does not
return a summary — the exception escapes to the caller (the belief that a
state-save failure is reported as an error string in the summary is false:
the `_save_state(state)` call is outside every `try`). -/
theorem run_sync_save_failure_escapes :
    (run_sync envSaveFailW emptyState).result = .error "disk full" := rfl

/-- C4 amended: whenever the state save succeeds, `run_sync` returns a
summary (with a `Nat`, hence non-negative, `events_created` and a possibly
empty error list) for every environment; but when the save raises on a
completed cycle, the exception propagates to the caller instead of being
reported in the summary. -/
theorem run_sync_summary_on_save_ok (env : SyncEnv) (st0 : SyncState) :
    (env.saveResult = .ok () → ∃ s : RunSummary, (run_sync env st0).result = .ok s) ∧
    (∀ e, env.saveResult = .error e → (runSyncAux env st0).2.2 = true →
      (run_sync env st0).result = .error e) := by
  constructor
  · intro hs
    by_cases ht : (runSyncAux env st0).2.2 = true
    · exact ⟨(runSyncAux env st0).1, by simp [run_sync, ht, hs]⟩
    · exact ⟨(runSyncAux env st0).1, by simp [run_sync, ht]⟩
  · intro e hs ht
    simp [run_sync, ht, hs]

theorem run_sync_summary_on_save_ok_witness :
    ∃ s : RunSummary, (run_sync envCompleteW emptyState).result = .ok s :=
  (run_sync_summary_on_save_ok envCompleteW emptyState).1 rfl

/-- Environment for the C6 counterexample: one baby, cache miss, and every
record fetch hitting a transport failure. -/
def envFetchFailW : SyncEnv :=
  { hatchEmail := some "e"
    hatchPassword := some "p"
    cachedLogin := some { token := "t", babies := [{ id := 7 }] }
    calendarFor := fun _ => .ok "cal"
    httpFeedings := fun _ => .exn "timeout" }

/-- C6 counterexample: a record fetcher does not raise on transport or
timeout failure — `_fetch` swallows the exception and the fetcher returns
an empty collection, so `run_sync` records no error string for the failed
kind: with every fetch failing in transport, the summary is
`{events_created: 0, errors: []}`. -/
theorem fetch_transport_failure_silent :
    fetch_feedings (HttpResult.exn "timeout") = [] ∧
    (run_sync envFetchFailW emptyState).result = .ok ⟨0, []⟩ :=
  ⟨rfl, rfl⟩

/-- A successful feedings response whose collection is empty. -/
def emptyFeedingsOk : HttpResult FeedingPayload :=
  .ok (some "success") (some { feedings := some [] })

/-- C6 amended: each fetcher returns an empty collection both when
upstream reports no data and on transport or timeout failure (the
exception is swallowed inside `_fetch`); within `run_sync` a
transport-failed kind is therefore indistinguishable from a successful
empty fetch — an empty collection for that kind, no recorded error
string, and the other three kinds unaffected. -/
theorem fetchers_swallow_transport_failures (msg : String) :
    fetch_diapers (.exn msg) = [] ∧ fetch_feedings (.exn msg) = [] ∧
    fetch_sleep (.exn msg) = [] ∧ fetch_weight (.exn msg) = [] ∧
    ∀ (env : SyncEnv) (st0 : SyncState),
      run_sync { env with httpFeedings := fun _ => .exn msg } st0 =
        run_sync { env with httpFeedings := fun _ => emptyFeedingsOk } st0 :=
  ⟨rfl, rfl, rfl, rfl, fun _ _ => rfl⟩

/-- C3: a new record whose adapter conversion or calendar insert raises
leaves an error string `f"{label} event {rid}: {e}"` in the summary, does
not increment the created count, and does not mark the id seen — so the
record is in the new subset again next cycle — while sibling records are
still processed (every other new record with a successful insert is marked
seen). Record ids are assumed pairwise distinct within the batch, the
upstream uniqueness invariant. -/
theorem failed_record_error_and_retry {α : Type} (ins : CalendarEvent → Except String Unit)
    (toEvent : α → CalendarEvent) (getId : α → Option Rid) (label : String)
    (pre post : List α) (r : α) (rid : Rid) (e : String) (seen0 : List Rid)
    (hnodup : ((pre ++ r :: post).filterMap getId).Nodup)
    (hid : getId r = some rid) (hnew : rid ∉ seen0)
    (hfail : ins (toEvent r) = .error e) :
    (label ++ " event " ++ ridStr rid ++ ": " ++ e) ∈
      (recordLoop ins toEvent getId label (pre ++ r :: post) seen0).errors ∧
    rid ∉ (recordLoop ins toEvent getId label (pre ++ r :: post) seen0).seen ∧
    (recordLoop ins toEvent getId label (pre ++ r :: post) seen0).created =
      (recordLoop ins toEvent getId label (pre ++ post) seen0).created ∧
    (recordLoop ins toEvent getId label (pre ++ r :: post) seen0).seen =
      (recordLoop ins toEvent getId label (pre ++ post) seen0).seen ∧
    (∀ r' ∈ pre ++ post, ∀ rid', getId r' = some rid' →
      ins (toEvent r') = .ok () →
      rid' ∈ (recordLoop ins toEvent getId label (pre ++ r :: post) seen0).seen) := by
  have hr : r ∈ pre ++ r :: post := by simp
  refine ⟨recordLoop_error_mem ins toEvent getId label hnodup hr hid hnew hfail,
    recordLoop_fail_not_seen ins toEvent getId label hnodup hr hid hnew hfail,
    (recordLoop_drop_failed ins toEvent getId label hnodup hid hnew hfail).1,
    (recordLoop_drop_failed ins toEvent getId label hnodup hid hnew hfail).2,
    ?_⟩
  intro r' hr' rid' hid' hok'
  refine recordLoop_ok_mem ins toEvent getId label ?_ hid' hok'
  rcases List.mem_append.mp hr' with h | h
  · exact List.mem_append.mpr (Or.inl h)
  · exact List.mem_append.mpr (Or.inr (List.mem_cons_of_mem r h))

/-- First diaper record for the C3 witness (insert succeeds). -/
def d1W : DiaperEntry := { id := some (.int 1), diaperType := some "A" }

/-- Second diaper record for the C3 witness (insert raises). -/
def d2W : DiaperEntry := { id := some (.int 2), diaperType := some "B" }

/-- Insert oracle for the C3 witness: fails exactly on the second record's
event. -/
def insFailBW : CalendarEvent → Except String Unit :=
  fun ev => if ev.summy = "Diaper - B" then .error "boom" else .ok ()

theorem failed_record_error_and_retry_witness :
    "Diaper event 2: boom" ∈
      (recordLoop insFailBW (diaper_to_event 0) DiaperEntry.id "Diaper"
        ([d1W] ++ d2W :: []) []).errors ∧
    Rid.int 2 ∉
      (recordLoop insFailBW (diaper_to_event 0) DiaperEntry.id "Diaper"
        ([d1W] ++ d2W :: []) []).seen ∧
    Rid.int 1 ∈
      (recordLoop insFailBW (diaper_to_event 0) DiaperEntry.id "Diaper"
        ([d1W] ++ d2W :: []) []).seen :=
  ⟨(failed_record_error_and_retry insFailBW (diaper_to_event 0) DiaperEntry.id "Diaper"
      [d1W] [] d2W (.int 2) "boom" [] (by decide) rfl (by decide) rfl).1,
   (failed_record_error_and_retry insFailBW (diaper_to_event 0) DiaperEntry.id "Diaper"
      [d1W] [] d2W (.int 2) "boom" [] (by decide) rfl (by decide) rfl).2.1,
   (failed_record_error_and_retry insFailBW (diaper_to_event 0) DiaperEntry.id "Diaper"
      [d1W] [] d2W (.int 2) "boom" [] (by decide) rfl (by decide) rfl).2.2.2.2
     d1W (by decide) (.int 1) rfl rfl⟩

/-- C7: a feeding or diaper record with its soft-delete flag set is never
surfaced: the fetchers exclude it before `run_sync` diffs the batch (so it
is never adapted or inserted), the cached path preserves this whenever the
cache holds previously fetched (hence filtered) bundles, and every id
added to the state during a cycle is the id of a record in some fetched
bundle — so a deleted record's id (unique to it) is never marked seen. -/
theorem soft_deleted_records_never_surfaced :
    (∀ (r : HttpResult FeedingPayload) (f : FeedingEntry),
      f ∈ fetch_feedings r → f.deleted = false) ∧
    (∀ (r : HttpResult DiaperPayload) (d : DiaperEntry),
      d ∈ fetch_diapers r → d.deleted = false) ∧
    (∀ (env : SyncEnv) (b : Baby),
      (∀ c, env.cachedGrow b.id = some c →
        (∀ f ∈ c.feedings.getD [], f.deleted = false) ∧
        (∀ d ∈ c.diapers.getD [], d.deleted = false)) →
      (∀ f ∈ (babyBundle env b).feedings, f.deleted = false) ∧
      (∀ d ∈ (babyBundle env b).diapers, d.deleted = false)) ∧
    (∀ (env : SyncEnv) (st0 : SyncState) (k : String) (x : Rid),
      x ∈ runFinalState env st0 k →
      x ∈ st0 k ∨ ∃ b ∈ loginBabies env, babyProv env b k x) := by
  have hfeed : ∀ (r : HttpResult FeedingPayload) (f : FeedingEntry),
      f ∈ fetch_feedings r → f.deleted = false := by
    intro r f h
    unfold fetch_feedings at h
    cases hf : hatchFetch r with
    | none =>
      simp only [hf] at h
      simp at h
    | some p =>
      simp only [hf] at h
      cases hp : p.feedings with
      | none =>
        simp only [hp] at h
        simp at h
      | some fs =>
        simp only [hp] at h
        have hm := List.mem_filter.mp h
        simpa using hm.2
  have hdiap : ∀ (r : HttpResult DiaperPayload) (d : DiaperEntry),
      d ∈ fetch_diapers r → d.deleted = false := by
    intro r d h
    unfold fetch_diapers at h
    cases hf : hatchFetch r with
    | none =>
      simp only [hf] at h
      simp at h
    | some p =>
      simp only [hf] at h
      cases hp : p.diapers with
      | none =>
        simp only [hp] at h
        simp at h
      | some ds =>
        simp only [hp] at h
        have hm := List.mem_filter.mp h
        simpa using hm.2
  refine ⟨hfeed, hdiap, ?_, ?_⟩
  · intro env b hcache
    unfold babyBundle
    cases hc : env.cachedGrow b.id with
    | some c =>
      obtain ⟨h1, h2⟩ := hcache c hc
      exact ⟨h1, h2⟩
    | none =>
      exact ⟨fun f hf => hfeed _ f hf, fun d hd => hdiap _ d hd⟩
  · intro env st0 k x h
    unfold runFinalState at h
    by_cases h1 : (truthy env.hatchEmail).isNone ∨ (truthy env.hatchPassword).isNone
    · rw [runSyncAux_early_creds env st0 h1] at h
      exact Or.inl h
    · cases h2 : env.serviceAccountOk with
      | false =>
        rw [runSyncAux_early_sa env st0 h1 h2] at h
        exact Or.inl h
      | true =>
        cases h3 : env.calendarAuth with
        | error e =>
          rw [runSyncAux_early_gauth env st0 h1 h2 h3] at h
          exact Or.inl h
        | ok u =>
          cases h4 : loginResult env with
          | error e =>
            rw [runSyncAux_early_login env st0 h1 h2 h3 h4] at h
            exact Or.inl h
          | ok ld =>
            rw [runSyncAux_processing env st0 h1 h2 h3 h4] at h
            have hlb : loginBabies env = ld.babies := by
              unfold loginBabies
              rw [h4]
            rw [hlb]
            exact processBabies_src env ld.babies (⟨0, []⟩, st0) h

/-- Environment for the C7 witness: the diaper payload carries one deleted
and one live record. -/
def envDelW : SyncEnv :=
  { hatchEmail := some "e"
    hatchPassword := some "p"
    cachedLogin := some { token := "t", babies := [{ id := 7 }] }
    calendarFor := fun _ => .ok "cal"
    httpDiapers := fun _ => .ok (some "success")
      (some { diapers := some [{ id := some (.int 3), deleted := true },
                               { id := some (.int 2) }] }) }

/-- C1: idempotence. Run `run_sync` once from any loaded state; run it
again on the state the first run wrote, with the same environment (the
second run fetches exactly the records the first run processed, every
calendar insert succeeding, the state save succeeding). The second run's
summary reports `events_created = 0`: every record identifier already in
the seen set of its (subject, kind) key is excluded from event
creation. -/
theorem run_sync_idempotent_second_run (env : SyncEnv) (st0 : SyncState)
    (hins : ∀ c ev, env.insertEvent c ev = Except.ok ())
    (hsave : env.saveResult = Except.ok ()) :
    ∀ s2 : RunSummary,
      (run_sync env (runFinalState env st0)).result = Except.ok s2 →
      s2.events_created = 0 := by
  intro s2 hs2
  by_cases h1 : (truthy env.hatchEmail).isNone ∨ (truthy env.hatchPassword).isNone
  · have haux := runSyncAux_early_creds env (runFinalState env st0) h1
    simp only [run_sync, haux] at hs2
    simp at hs2
    rw [← hs2]
  · cases h2 : env.serviceAccountOk with
    | false =>
      have haux := runSyncAux_early_sa env (runFinalState env st0) h1 h2
      simp only [run_sync, haux] at hs2
      simp at hs2
      rw [← hs2]
    | true =>
      cases h3 : env.calendarAuth with
      | error e =>
        have haux := runSyncAux_early_gauth env (runFinalState env st0) h1 h2 h3
        simp only [run_sync, haux] at hs2
        simp at hs2
        rw [← hs2]
      | ok u =>
        cases h4 : loginResult env with
        | error e =>
          have haux := runSyncAux_early_login env (runFinalState env st0) h1 h2 h3 h4
          simp only [run_sync, haux] at hs2
          simp at hs2
          rw [← hs2]
        | ok ld =>
          have hst1 : runFinalState env st0 = (processBabies env ld.babies st0).2 := by
            unfold runFinalState
            rw [runSyncAux_processing env st0 h1 h2 h3 h4]
          have haux := runSyncAux_processing env (runFinalState env st0) h1 h2 h3 h4
          simp only [run_sync, haux, hsave] at hs2
          simp at hs2
          rw [← hs2]
          have hcov : ∀ b ∈ ld.babies, ∀ calId, env.calendarFor b = .ok calId →
              bundleCovered env b (runFinalState env st0) := by
            intro b hb calId hcal
            rw [hst1]
            exact processBabies_covers env hins ld.babies (⟨0, []⟩, st0) b hb calId hcal
          exact processBabies_zero env (runFinalState env st0) ld.babies
            (⟨0, []⟩, runFinalState env st0) hcov
            (stateLe_refl (runFinalState env st0))

theorem run_sync_idempotent_second_run_witness :
    (RunSummary.mk 0 []).events_created = 0 :=
  run_sync_idempotent_second_run envMonW emptyState (fun _ _ => rfl) rfl
    ⟨0, []⟩ rfl

theorem soft_deleted_records_never_surfaced_witness :
    DiaperEntry.deleted { id := some (.int 2) } = false ∧
    (Rid.int 2 ∈ emptyState "baby_7_diaper" ∨
      ∃ b ∈ loginBabies envDelW, babyProv envDelW b "baby_7_diaper" (Rid.int 2)) :=
  ⟨soft_deleted_records_never_surfaced.2.1 (envDelW.httpDiapers 7) _ (by decide),
   soft_deleted_records_never_surfaced.2.2.2 envDelW emptyState "baby_7_diaper"
     (Rid.int 2) (by decide)⟩

end HatchSync
